import Mathlib

/-!
Verification of the streamed-audio-to-container pipeline of
`generate_audio.py`: the MIME audio parameter parser
(`parse_audio_mime_type`), the WAV container synthesizer
(`convert_to_wav`, factored as `synthesize` over already-parsed
sample parameters, matching the spec's vocabulary), and the stream
demultiplexer (the chunk loop of `generate`).

Modelling conventions: Python byte strings are `List Nat`, Python
integers are `Int` (arbitrary precision, possibly negative), fallible
operations are `Option` / `Except`.  String handling (strip, lower,
split, `int()`) is modelled over `List Char` for the ASCII strings the
pipeline manipulates.
-/

namespace Demo

/-- ASCII whitespace as recognised by Python `str.strip()` and by the
leading/trailing whitespace tolerance of Python `int()`: space, tab,
newline, carriage return, vertical tab, form feed. -/
def pyIsSpace (c : Char) : Bool :=
  c = ' ' || c = '\t' || c = '\n' || c = '\r' || c.toNat = 11 || c.toNat = 12

/-- Python `str.strip()` (ASCII fragment): drop whitespace from both ends. -/
def pyStrip (l : List Char) : List Char :=
  ((l.dropWhile pyIsSpace).reverse.dropWhile pyIsSpace).reverse

/-- Python `str.lower()` on an ASCII character. -/
def pyLowerChar (c : Char) : Char :=
  if 'A' ≤ c && c ≤ 'Z' then Char.ofNat (c.toNat + 32) else c

/-- Python `str.lower()` (ASCII fragment). -/
def pyLower (l : List Char) : List Char := l.map pyLowerChar

/-- Numeric value of an ASCII digit. -/
def digitVal (c : Char) : Nat := c.toNat - 48

/-- Digit-run accumulator of Python `int()`: decimal digits where a
single underscore may separate two digits (CPython's
`_PyLong_FromString` grouping rule); anything else is a `ValueError`
(`none`). -/
def pyDigitsAux : Nat → List Char → Option Nat
  | acc, [] => some acc
  | acc, '_' :: rest =>
    match rest with
    | [] => none
    | c :: rest2 =>
      if c.isDigit then pyDigitsAux (acc * 10 + digitVal c) rest2 else none
  | acc, c :: rest =>
    if c.isDigit then pyDigitsAux (acc * 10 + digitVal c) rest else none

/-- Unsigned part of Python `int()`: at least one digit, starting with
a digit (a leading underscore is a `ValueError`). -/
def pyIntCore : List Char → Option Nat
  | [] => none
  | c :: rest => if c.isDigit then pyDigitsAux (digitVal c) rest else none

/-- Python `int(s)` on an ASCII string: surrounding whitespace is
ignored, an optional single sign precedes the digits, failure is
`none` (`ValueError`). -/
def pyInt? (l : List Char) : Option Int :=
  match pyStrip l with
  | '-' :: rest => (pyIntCore rest).map (fun n => -(n : Int))
  | '+' :: rest => (pyIntCore rest).map (fun n => (n : Int))
  | t => (pyIntCore t).map (fun n => (n : Int))

/-- Python `s.split(sep)` for a one-character separator: splits on
every occurrence, keeping empty pieces (so `"".split(";") = [""]`). -/
def splitOnChar (sep : Char) : List Char → List (List Char)
  | [] => [[]]
  | c :: rest =>
    match splitOnChar sep rest with
    | [] => [[]]
    | g :: gs => if c = sep then [] :: g :: gs else (c :: g) :: gs

/-- Python `s.split(sep, 1)[1]`: the remainder after the first
occurrence of `sep`, `none` (`IndexError`) when `sep` is absent. -/
def afterFirst (sep : Char) : List Char → Option (List Char)
  | [] => none
  | c :: rest => if c = sep then some rest else afterFirst sep rest

/-- The sample parameters returned by `parse_audio_mime_type`
(the dict keys `bits_per_sample` and `rate` of the source). -/
structure SampleParameters where
  bits_per_sample : Int
  rate : Int
deriving DecidableEq, Repr

/-- One iteration of the token loop of `parse_audio_mime_type`
(`generate_audio.py` lines 230-243): strip the token; if its lowered
form starts with `rate=`, try `int` on the part after the first `=`
(`try`/`except` modelled by `Option`); otherwise, if it starts with the
case-sensitive `audio/L`, try `int` on the part after the first `L`. -/
def parseStep (p : SampleParameters) (tok : List Char) : SampleParameters :=
  if List.isPrefixOf ("rate=".toList) (pyLower (pyStrip tok)) then
    match (afterFirst '=' (pyStrip tok)).bind pyInt? with
    | some n => { p with rate := n }
    | none => p
  else if List.isPrefixOf ("audio/L".toList) (pyStrip tok) then
    match (afterFirst 'L' (pyStrip tok)).bind pyInt? with
    | some n => { p with bits_per_sample := n }
    | none => p
  else p

/-- `parse_audio_mime_type` (`generate_audio.py` lines 213-245):
defaults `{bits_per_sample := 16, rate := 24000}`, then fold the token
loop over the `;`-separated pieces of the MIME string. -/
def parse_audio_mime_type (mime_type : String) : SampleParameters :=
  (splitOnChar ';' mime_type.toList).foldl parseStep
    { bits_per_sample := 16, rate := 24000 }

example : parse_audio_mime_type "audio/L16;rate=24000" =
    { bits_per_sample := 16, rate := 24000 } := by decide

example : parse_audio_mime_type "audio/L24; RATE=48000 ;x=1" =
    { bits_per_sample := 24, rate := 48000 } := by decide

example : parse_audio_mime_type "" =
    { bits_per_sample := 16, rate := 24000 } := by decide

example : parse_audio_mime_type "audio/L8;rate=;rate=7;audio/Lx" =
    { bits_per_sample := 8, rate := 7 } := by decide

/-! ### Container synthesizer (`convert_to_wav`, lines 173-211) -/

/-- Little-endian byte decomposition used by `struct.pack` for a `I`
(u32) field. -/
def u32bytes (n : Nat) : List Nat :=
  [n % 256, n / 256 % 256, n / 65536 % 256, n / 16777216 % 256]

/-- Little-endian byte decomposition used by `struct.pack` for a `H`
(u16) field. -/
def u16bytes (n : Nat) : List Nat :=
  [n % 256, n / 256 % 256]

/-- `struct.pack "<I"` on one field: requires `0 ≤ v < 2^32`, else
`struct.error` (`none`).  The upper bound is phrased over `v.toNat`
(equivalent for `0 ≤ v`, see `u32le?_int_cond`) so that reduction on a
symbolic `v` stays shallow. -/
def u32le? (v : Int) : Option (List Nat) :=
  if 0 ≤ v ∧ v.toNat < 4294967296 then some (u32bytes v.toNat) else none

/-- `struct.pack "<H"` on one field: requires `0 ≤ v < 2^16`, else
`struct.error` (`none`). -/
def u16le? (v : Int) : Option (List Nat) :=
  if 0 ≤ v ∧ v.toNat < 65536 then some (u16bytes v.toNat) else none

theorem u32le?_int_cond (v : Int) :
    u32le? v = if 0 ≤ v ∧ v < 4294967296 then some (u32bytes v.toNat) else none := by
  unfold u32le?
  by_cases h : 0 ≤ v ∧ v < 4294967296
  · rw [if_pos h, if_pos ⟨h.1, by omega⟩]
  · rw [if_neg h, if_neg (by omega)]

theorem u16le?_int_cond (v : Int) :
    u16le? v = if 0 ≤ v ∧ v < 65536 then some (u16bytes v.toNat) else none := by
  unfold u16le?
  by_cases h : 0 ≤ v ∧ v < 65536
  · rw [if_pos h, if_pos ⟨h.1, by omega⟩]
  · rw [if_neg h, if_neg (by omega)]

/-- ASCII bytes of `b"RIFF"`. -/
def riffTag : List Nat := [82, 73, 70, 70]

/-- ASCII bytes of `b"WAVE"`. -/
def waveTag : List Nat := [87, 65, 86, 69]

/-- ASCII bytes of `b"fmt "`. -/
def fmtTag : List Nat := [102, 109, 116, 32]

/-- ASCII bytes of `b"data"`. -/
def dataTag : List Nat := [100, 97, 116, 97]

/-- The fixed mono design constant of `convert_to_wav`. -/
def num_channels : Int := 1

/-- `bytes_per_sample = bits_per_sample // 8` (Python floor division). -/
def bytes_per_sample (p : SampleParameters) : Int := p.bits_per_sample.fdiv 8

/-- `block_align = num_channels * bytes_per_sample`. -/
def block_align (p : SampleParameters) : Int := num_channels * bytes_per_sample p

/-- `byte_rate = sample_rate * block_align`. -/
def byte_rate (p : SampleParameters) : Int := p.rate * block_align p

/-- The packing step of `convert_to_wav` (lines 186-211), over already
parsed parameters — the spec's `synthesize(pcm_bytes, params)`.
`struct.pack "<4sI4s4sIHHIIHH4sI"` packs the fields left to right and
raises `struct.error` on the first out-of-range numeric field; this is
an `Option.bind` chain in field order.  On success the 44-byte header
is concatenated with the unchanged audio data. -/
def synthesize (audio_data : List Nat) (p : SampleParameters) : Option (List Nat) :=
  Option.bind (u32le? (36 + (audio_data.length : Int))) fun bChunk =>
  Option.bind (u32le? 16) fun bSub1 =>
  Option.bind (u16le? 1) fun bFmt =>
  Option.bind (u16le? num_channels) fun bNc =>
  Option.bind (u32le? p.rate) fun bSr =>
  Option.bind (u32le? (byte_rate p)) fun bBr =>
  Option.bind (u16le? (block_align p)) fun bBa =>
  Option.bind (u16le? p.bits_per_sample) fun bBits =>
  Option.bind (u32le? (audio_data.length : Int)) fun bDs =>
  some (riffTag ++ bChunk ++ waveTag ++ fmtTag ++ bSub1 ++ bFmt ++ bNc ++
    bSr ++ bBr ++ bBa ++ bBits ++ dataTag ++ bDs ++ audio_data)

/-- `convert_to_wav(audio_data, mime_type)` (lines 173-211): parse the
MIME type, then pack the header and prepend it to the data. -/
def convert_to_wav (audio_data : List Nat) (mime_type : String) : Option (List Nat) :=
  synthesize audio_data (parse_audio_mime_type mime_type)

/-- The range conditions under which every numeric field of the header
fits its fixed `struct.pack` width: `bits_per_sample` and `block_align`
in a u16, `sample_rate`, `byte_rate` and `36 + data_size` in a u32. -/
def headerFits (p : SampleParameters) (n : Nat) : Prop :=
  (0 ≤ p.bits_per_sample ∧ p.bits_per_sample < 65536) ∧
  (0 ≤ block_align p ∧ block_align p < 65536) ∧
  (0 ≤ p.rate ∧ p.rate < 4294967296) ∧
  (0 ≤ byte_rate p ∧ byte_rate p < 4294967296) ∧
  36 + (n : Int) < 4294967296

instance (p : SampleParameters) (n : Nat) : Decidable (headerFits p n) := by
  unfold headerFits
  infer_instance

/-- The 44-byte RIFF/WAVE header, written from the layout table of
spec section 4.2 (offset/size/field/value), for comparison with the
buffer produced by the source's packing step. -/
def wavHeaderSpec (p : SampleParameters) (n : Nat) : List Nat :=
  riffTag ++ u32bytes (36 + n) ++ waveTag ++ fmtTag ++ u32bytes 16 ++
    u16bytes 1 ++ u16bytes 1 ++ u32bytes p.rate.toNat ++
    u32bytes (byte_rate p).toNat ++ u16bytes (block_align p).toNat ++
    u16bytes p.bits_per_sample.toNat ++ dataTag ++ u32bytes n

/-- Reading back a little-endian u32 at a byte offset of a buffer
(0 when the buffer is too short). -/
def readU32 (l : List Nat) (off : Nat) : Nat :=
  match l.drop off with
  | b0 :: b1 :: b2 :: b3 :: _ => b0 + 256 * b1 + 65536 * b2 + 16777216 * b3
  | _ => 0

example : convert_to_wav [] "audio/L16;rate=24000" =
    some (wavHeaderSpec { bits_per_sample := 16, rate := 24000 } 0 ++ []) := by decide

example : synthesize [] { bits_per_sample := 65536, rate := 24000 } = none := by decide

example : (wavHeaderSpec { bits_per_sample := 16, rate := 24000 } 0).length = 44 := by decide

/-! ### Stream demultiplexer (the chunk loop of `generate`, lines 124-171)

The whole loop of `generate` runs inside a single `try`/`except
Exception` (lines 124-171): any exception raised while handling one
chunk — `IndexError` from `candidates[0]` / `parts[0]` on an empty
list, `AttributeError` from `mimetypes.guess_extension(None)` on an
absent MIME type, `struct.error` from the packing step, or an I/O
error from `save_binary_file` — aborts the processing of all remaining
chunks.  The sink (`save_binary_file` plus the filesystem) is a
parameter; `mimetypes.guess_extension` is standard-library code
outside the repository and is modelled from the spec below. -/

/-- Exceptions that can escape one chunk's handling and reach the
stream-level handler. -/
inductive PyError where
  | attributeError
  | indexError
  | structError
  | ioError
deriving DecidableEq, Repr

/-- `inline_data`: the payload blob of a part.  `mime_type` is
optional in the response schema; absent audio bytes are modelled as
the empty buffer (both `None` and `b""` are falsy in the guard at
line 144). -/
structure Blob where
  mime_type : Option String
  data : List Nat
deriving DecidableEq, Repr

/-- One part of a candidate's content. -/
structure ResponsePart where
  inline_data : Option Blob
deriving DecidableEq, Repr

/-- A candidate's content: an optional list of parts. -/
structure Content where
  parts : Option (List ResponsePart)
deriving DecidableEq, Repr

/-- One response candidate. -/
structure Candidate where
  content : Option Content
deriving DecidableEq, Repr

/-- One streamed response chunk, as inspected by the loop: the
candidate list and the aggregate `text` property (the latter is only
printed, never written to the sink). -/
structure Chunk where
  candidates : Option (List Candidate)
  text : Option String
deriving DecidableEq, Repr

/-- One emitted output: index, base file name, extension (with its
leading dot, as returned by `mimetypes.guess_extension`), and the
byte buffer handed to the sink. -/
structure OutputUnit where
  index : Nat
  name : String
  extension : String
  bytes : List Nat
deriving DecidableEq, Repr

/-- Outcome of handling one chunk: skipped (no output, no index
increment), one output emitted (index incremented), or an exception
escaping to the stream-level handler (`incremented` records whether
`file_index += 1` at line 146 had already run). -/
inductive StepResult where
  | skip
  | emit (u : OutputUnit)
  | fail (incremented : Bool) (e : PyError)
deriving DecidableEq, Repr

/-- Modelled from the spec: the "standard MIME-to-extension mapping"
(section 4.3) consulted by `mimetypes.guess_extension`, standard-library
code outside the repository.  Container audio types named by the spec
(section 6: `audio/wav`, `audio/mpeg`) are mapped; parameterized raw-PCM
types such as `audio/L16;rate=24000` have no entry.  The lookup
lowercases its argument, as `mimetypes.guess_all_extensions` does. -/
def mime_ext_table : List (String × String) :=
  [("audio/wav", ".wav"), ("audio/x-wav", ".wav"), ("audio/mpeg", ".mp3"),
   ("audio/aac", ".aac"), ("audio/ogg", ".ogg")]

/-- `mimetypes.guess_extension` on a present MIME string. -/
def guessExtension? (t : String) : Option String :=
  mime_ext_table.lookup (String.mk (pyLower t.toList))

/-- A sink environment for `save_binary_file`: persist a named byte
buffer, or raise an I/O error. -/
def Sink : Type := String → List Nat → Except PyError Unit

/-- The always-succeeding sink. -/
def okSink : Sink := fun _ _ => Except.ok ()

/-- `save_binary_file(file_name, data_buffer)` at line 155: hand the
buffer to the sink; an I/O error escapes to the stream-level handler,
success emits the unit. -/
def saveStep (sink : Sink) (file_name : String) (u : OutputUnit) : StepResult :=
  match sink file_name u.bytes with
  | .error e => .fail true e
  | .ok _ => .emit u

/-- The synthesis path (line 154): wrap the raw bytes with
`convert_to_wav`, then save; a `struct.error` from the packing step
escapes to the stream-level handler. -/
def synthStep (sink : Sink) (file_name : String) (i : Nat) (dat : List Nat)
    (mt : String) : StepResult :=
  match convert_to_wav dat mt with
  | none => .fail true .structError
  | some buf => saveStep sink (file_name ++ ".wav") ⟨i, file_name, ".wav", buf⟩

/-- The extension dispatch (lines 151-154): pass the data through when
`guess_extension` knows the MIME type, otherwise take the synthesis
path with extension `".wav"`. -/
def dispatchMime (sink : Sink) (file_name : String) (i : Nat) (dat : List Nat)
    (mt : String) : StepResult :=
  match guessExtension? mt with
  | some ext => saveStep sink (file_name ++ ext) ⟨i, file_name, ext, dat⟩
  | none => synthStep sink file_name i dat mt

/-- The audio branch (lines 144-155): skipped when `inline_data.data`
is falsy; otherwise the file name is formed from the current index,
the index is incremented, and the MIME type is dispatched;
`mimetypes.guess_extension` raises `AttributeError` when `mime_type`
is `None`. -/
def handleBlob (sink : Sink) (base_name : String) (file_index : Nat)
    (blob : Blob) : StepResult :=
  if blob.data.isEmpty then .skip
  else
    let file_name := base_name ++ "_part_" ++ toString file_index
    match blob.mime_type with
    | none => .fail true .attributeError
    | some mt => dispatchMime sink file_name file_index blob.data mt

/-- Handling of one chunk by the loop body (lines 136-160).
Short-circuit structure of the guards at lines 136-144: a `None`
candidate list, content, or parts list skips the chunk; an *empty*
candidate or parts list raises `IndexError` from the subscript `[0]`;
a first part without inline data falls to the text branch (print
only, no output). -/
def processChunk (sink : Sink) (base_name : String) (file_index : Nat)
    (chunk : Chunk) : StepResult :=
  match chunk.candidates with
  | none => .skip
  | some [] => .fail false .indexError
  | some (cand :: _) =>
    match cand.content with
    | none => .skip
    | some content =>
      match content.parts with
      | none => .skip
      | some [] => .fail false .indexError
      | some (part :: _) =>
        match part.inline_data with
        | none => .skip
        | some blob => handleBlob sink base_name file_index blob

/-- The chunk loop (lines 128-160): fold `processChunk` over the
stream, threading `file_index`.  Returns the units emitted (in order),
the final `file_index`, and the exception, if one aborted the loop. -/
def generateLoop (sink : Sink) (base_name : String) :
    Nat → List Chunk → List OutputUnit × Nat × Option PyError
  | i, [] => ([], i, none)
  | i, c :: rest =>
    match processChunk sink base_name i c with
    | .skip => generateLoop sink base_name i rest
    | .emit u =>
      match generateLoop sink base_name (i + 1) rest with
      | (us, j, h) => (u :: us, j, h)
    | .fail incremented e => ([], if incremented then i + 1 else i, some e)

/-- Result of one `generate` call on a whole stream.  `diagnostic` is
the "no audio files were generated" message of lines 162-166: it is
printed (informational, not raised) only when the loop finished
without an exception and `file_index` is still 0. -/
structure GenResult where
  units : List OutputUnit
  final_index : Nat
  halted : Option PyError
  diagnostic : Bool
deriving DecidableEq, Repr

/-- The stream-processing core of `generate` (lines 124-171), with the
fragment source, base file name and sink as parameters. -/
def generate (sink : Sink) (base_name : String) (chunks : List Chunk) : GenResult :=
  match generateLoop sink base_name 0 chunks with
  | (us, j, h) => ⟨us, j, h, h.isNone && j == 0⟩

/-- The spec's `AudioFragment` tagged union (section 3): one unit of
the response stream. -/
inductive AudioFragment where
  | audioPayload (data : List Nat) (mime_type : Option String)
  | textPayload (text : String)
  | empty
deriving DecidableEq, Repr

/-- Embedding of a spec-level fragment into the chunk shape the loop
inspects: an audio payload sits in `candidates[0].content.parts[0].inline_data`;
a text payload has a first part without inline data and a `text`
property; an empty fragment has no candidates. -/
def toChunk : AudioFragment → Chunk
  | .audioPayload d m => ⟨some [⟨some ⟨some [⟨some ⟨m, d⟩⟩]⟩⟩], none⟩
  | .textPayload t => ⟨some [⟨some ⟨some [⟨none⟩]⟩⟩], some t⟩
  | .empty => ⟨none, none⟩

/-- A fragment is audio-bearing when it is an audio payload with a
truthy (nonempty) byte buffer. -/
def isAudioBearing : AudioFragment → Bool
  | .audioPayload d _ => !d.isEmpty
  | _ => false

/-- A chunk is classified audio-bearing by the guard at line 144:
first part of the first candidate carries truthy inline data. -/
def isAudioChunk (c : Chunk) : Bool :=
  match c.candidates with
  | some (⟨some ⟨some (⟨some b⟩ :: _)⟩⟩ :: _) => !b.data.isEmpty
  | _ => false

example :
    generate okSink "b" [toChunk (.audioPayload [1] (some "audio/wav"))] =
      ⟨[⟨0, "b_part_0", ".wav", [1]⟩], 1, none, false⟩ := by decide

example :
    generate okSink "b" [toChunk (.textPayload "hi"), toChunk .empty] =
      ⟨[], 0, none, true⟩ := by decide

/-! ### Helper lemmas about the synthesizer -/

theorem u32le?_pos (v : Int) (h0 : 0 ≤ v) (h1 : v < 4294967296) :
    u32le? v = some (u32bytes v.toNat) := by
  unfold u32le?
  exact if_pos ⟨h0, by omega⟩

theorem u16le?_pos (v : Int) (h0 : 0 ≤ v) (h1 : v < 65536) :
    u16le? v = some (u16bytes v.toNat) := by
  unfold u16le?
  exact if_pos ⟨h0, by omega⟩

theorem u32le?_neg (v : Int) (h : ¬(0 ≤ v ∧ v < 4294967296)) :
    u32le? v = none := by
  unfold u32le?
  exact if_neg (by omega)

theorem u16le?_neg (v : Int) (h : ¬(0 ≤ v ∧ v < 65536)) :
    u16le? v = none := by
  unfold u16le?
  exact if_neg (by omega)

theorem synthesize_of_fits (d : List Nat) (p : SampleParameters)
    (h : headerFits p d.length) :
    synthesize d p = some (wavHeaderSpec p d.length ++ d) := by
  obtain ⟨⟨hb0, hb1⟩, ⟨ha0, ha1⟩, ⟨hr0, hr1⟩, ⟨hy0, hy1⟩, hc⟩ := h
  have hc0 : (0 : Int) ≤ 36 + d.length := by positivity
  have hd0 : (0 : Int) ≤ (d.length : Int) := by positivity
  have hd1 : (d.length : Int) < 4294967296 := by omega
  unfold synthesize
  rw [u32le?_pos _ hc0 hc, u32le?_pos _ hr0 hr1, u32le?_pos _ hy0 hy1,
    u16le?_pos _ ha0 ha1, u16le?_pos _ hb0 hb1, u32le?_pos _ hd0 hd1]
  have e16 : u32le? 16 = some (u32bytes 16) := by decide
  have e1 : u16le? 1 = some (u16bytes 1) := by decide
  have enc : u16le? num_channels = some (u16bytes 1) := by decide
  rw [e16, e1, enc]
  simp only [Option.some_bind]
  have hlen : ((36 : Int) + d.length).toNat = 36 + d.length := by omega
  have hdlen : ((d.length : Int)).toNat = d.length := by omega
  rw [hlen, hdlen]
  simp [wavHeaderSpec, List.append_assoc]

theorem synthesize_none_of_not_fits (d : List Nat) (p : SampleParameters)
    (h : ¬ headerFits p d.length) :
    synthesize d p = none := by
  have hc0 : (0 : Int) ≤ 36 + d.length := by positivity
  by_cases hc : (36 : Int) + d.length < 4294967296
  · by_cases hr : 0 ≤ p.rate ∧ p.rate < 4294967296
    · by_cases hy : 0 ≤ byte_rate p ∧ byte_rate p < 4294967296
      · by_cases ha : 0 ≤ block_align p ∧ block_align p < 65536
        · by_cases hb : 0 ≤ p.bits_per_sample ∧ p.bits_per_sample < 65536
          · exact absurd ⟨hb, ha, hr, hy, hc⟩ h
          · unfold synthesize
            rw [u32le?_pos _ hc0 hc, u32le?_pos _ hr.1 hr.2,
              u32le?_pos _ hy.1 hy.2, u16le?_pos _ ha.1 ha.2, u16le?_neg _ hb]
            have e16 : u32le? 16 = some (u32bytes 16) := by decide
            have e1 : u16le? 1 = some (u16bytes 1) := by decide
            have enc : u16le? num_channels = some (u16bytes 1) := by decide
            rw [e16, e1, enc]
            simp
        · unfold synthesize
          rw [u32le?_pos _ hc0 hc, u32le?_pos _ hr.1 hr.2,
            u32le?_pos _ hy.1 hy.2, u16le?_neg _ ha]
          have e16 : u32le? 16 = some (u32bytes 16) := by decide
          have e1 : u16le? 1 = some (u16bytes 1) := by decide
          have enc : u16le? num_channels = some (u16bytes 1) := by decide
          rw [e16, e1, enc]
          simp
      · unfold synthesize
        rw [u32le?_pos _ hc0 hc, u32le?_pos _ hr.1 hr.2, u32le?_neg _ hy]
        have e16 : u32le? 16 = some (u32bytes 16) := by decide
        have e1 : u16le? 1 = some (u16bytes 1) := by decide
        have enc : u16le? num_channels = some (u16bytes 1) := by decide
        rw [e16, e1, enc]
        simp
    · unfold synthesize
      rw [u32le?_pos _ hc0 hc, u32le?_neg _ hr]
      have e16 : u32le? 16 = some (u32bytes 16) := by decide
      have e1 : u16le? 1 = some (u16bytes 1) := by decide
      have enc : u16le? num_channels = some (u16bytes 1) := by decide
      rw [e16, e1, enc]
      simp
  · unfold synthesize
    rw [u32le?_neg _ (by omega)]
    simp

theorem synthesize_isSome_iff (d : List Nat) (p : SampleParameters) :
    (synthesize d p).isSome ↔ headerFits p d.length := by
  constructor
  · intro hs
    by_contra hn
    rw [synthesize_none_of_not_fits d p hn] at hs
    cases hs
  · intro hf
    rw [synthesize_of_fits d p hf]
    rfl

theorem wavHeaderSpec_length (p : SampleParameters) (n : Nat) :
    (wavHeaderSpec p n).length = 44 := by
  simp [wavHeaderSpec, riffTag, waveTag, fmtTag, dataTag, u32bytes, u16bytes]

theorem readU32_header_4 (p : SampleParameters) (n : Nat) (rest : List Nat)
    (h : 36 + n < 4294967296) :
    readU32 (wavHeaderSpec p n ++ rest) 4 = 36 + n := by
  have hsplit : wavHeaderSpec p n ++ rest =
      riffTag ++ (u32bytes (36 + n) ++
        (waveTag ++ fmtTag ++ u32bytes 16 ++ u16bytes 1 ++ u16bytes 1 ++
          u32bytes p.rate.toNat ++ u32bytes (byte_rate p).toNat ++
          u16bytes (block_align p).toNat ++ u16bytes p.bits_per_sample.toNat ++
          dataTag ++ u32bytes n ++ rest)) := by
    simp [wavHeaderSpec, List.append_assoc]
  rw [readU32, hsplit, List.drop_left' (by rfl : riffTag.length = 4)]
  simp only [u32bytes, List.cons_append, List.nil_append]
  omega

theorem readU32_header_40 (p : SampleParameters) (n : Nat) (rest : List Nat)
    (h : n < 4294967296) :
    readU32 (wavHeaderSpec p n ++ rest) 40 = n := by
  have hsplit : wavHeaderSpec p n ++ rest =
      (riffTag ++ u32bytes (36 + n) ++ waveTag ++ fmtTag ++ u32bytes 16 ++
        u16bytes 1 ++ u16bytes 1 ++ u32bytes p.rate.toNat ++
        u32bytes (byte_rate p).toNat ++ u16bytes (block_align p).toNat ++
        u16bytes p.bits_per_sample.toNat ++ dataTag) ++ (u32bytes n ++ rest) := by
    simp [wavHeaderSpec, List.append_assoc]
  have hlen : (riffTag ++ u32bytes (36 + n) ++ waveTag ++ fmtTag ++ u32bytes 16 ++
      u16bytes 1 ++ u16bytes 1 ++ u32bytes p.rate.toNat ++
      u32bytes (byte_rate p).toNat ++ u16bytes (block_align p).toNat ++
      u16bytes p.bits_per_sample.toNat ++ dataTag).length = 40 := by
    simp [riffTag, waveTag, fmtTag, dataTag, u32bytes, u16bytes]
  rw [readU32, hsplit, List.drop_left' hlen]
  simp only [u32bytes, List.cons_append, List.nil_append]
  omega

theorem readU32_header_24 (p : SampleParameters) (n : Nat) (rest : List Nat)
    (h : p.rate.toNat < 4294967296) :
    readU32 (wavHeaderSpec p n ++ rest) 24 = p.rate.toNat := by
  have hsplit : wavHeaderSpec p n ++ rest =
      (riffTag ++ u32bytes (36 + n) ++ waveTag ++ fmtTag ++ u32bytes 16 ++
        u16bytes 1 ++ u16bytes 1) ++
        (u32bytes p.rate.toNat ++
          (u32bytes (byte_rate p).toNat ++ u16bytes (block_align p).toNat ++
            u16bytes p.bits_per_sample.toNat ++ dataTag ++ u32bytes n ++ rest)) := by
    simp [wavHeaderSpec, List.append_assoc]
  have hlen : (riffTag ++ u32bytes (36 + n) ++ waveTag ++ fmtTag ++ u32bytes 16 ++
      u16bytes 1 ++ u16bytes 1).length = 24 := by
    simp [riffTag, waveTag, fmtTag, u32bytes, u16bytes]
  rw [readU32, hsplit, List.drop_left' hlen]
  simp only [u32bytes, List.cons_append, List.nil_append]
  omega

/-! ### Helper lemmas about the demultiplexer -/

theorem saveStep_char (sink : Sink) (fn : String) (u : OutputUnit) :
    saveStep sink fn u = .emit u ∨ ∃ e, saveStep sink fn u = .fail true e := by
  unfold saveStep
  rcases hs : sink fn u.bytes with e | x
  · exact Or.inr ⟨e, rfl⟩
  · exact Or.inl rfl

theorem synthStep_char (sink : Sink) (fn : String) (i : Nat) (dat : List Nat)
    (m : String) :
    (∃ u, synthStep sink fn i dat m = .emit u ∧ u.index = i ∧ u.name = fn) ∨
    ∃ e, synthStep sink fn i dat m = .fail true e := by
  unfold synthStep
  rcases hw : convert_to_wav dat m with _ | buf
  · exact Or.inr ⟨.structError, rfl⟩
  rcases saveStep_char sink (fn ++ ".wav") ⟨i, fn, ".wav", buf⟩ with he | ⟨e, he⟩
  · exact Or.inl ⟨⟨i, fn, ".wav", buf⟩, he, rfl, rfl⟩
  · exact Or.inr ⟨e, he⟩

theorem dispatchMime_char (sink : Sink) (fn : String) (i : Nat) (dat : List Nat)
    (m : String) :
    (∃ u, dispatchMime sink fn i dat m = .emit u ∧ u.index = i ∧ u.name = fn) ∨
    ∃ e, dispatchMime sink fn i dat m = .fail true e := by
  unfold dispatchMime
  rcases hg : guessExtension? m with _ | ext
  · exact synthStep_char sink fn i dat m
  rcases saveStep_char sink (fn ++ ext) ⟨i, fn, ext, dat⟩ with he | ⟨e, he⟩
  · exact Or.inl ⟨⟨i, fn, ext, dat⟩, he, rfl, rfl⟩
  · exact Or.inr ⟨e, he⟩

theorem handleBlob_char (sink : Sink) (b : String) (i : Nat) (blob : Blob)
    (hd : blob.data.isEmpty = false) :
    (∃ u, handleBlob sink b i blob = .emit u ∧ u.index = i ∧
      u.name = b ++ "_part_" ++ toString i) ∨
    ∃ e, handleBlob sink b i blob = .fail true e := by
  unfold handleBlob
  rw [hd]
  rcases blob with ⟨mt, dat⟩
  rcases mt with _ | m
  · exact Or.inr ⟨.attributeError, rfl⟩
  · exact dispatchMime_char sink (b ++ "_part_" ++ toString i) i dat m

theorem processChunk_char (sink : Sink) (b : String) (i : Nat) (c : Chunk) :
    (isAudioChunk c = false ∧
      (processChunk sink b i c = .skip ∨
        ∃ e, processChunk sink b i c = .fail false e)) ∨
    (isAudioChunk c = true ∧
      ((∃ u, processChunk sink b i c = .emit u ∧ u.index = i ∧
          u.name = b ++ "_part_" ++ toString i) ∨
        ∃ e, processChunk sink b i c = .fail true e)) := by
  rcases c with ⟨cands, txt⟩
  rcases cands with _ | cl
  · exact Or.inl ⟨rfl, Or.inl rfl⟩
  rcases cl with _ | ⟨⟨ct⟩, cltl⟩
  · exact Or.inl ⟨rfl, Or.inr ⟨.indexError, rfl⟩⟩
  rcases ct with _ | ⟨parts⟩
  · exact Or.inl ⟨rfl, Or.inl rfl⟩
  rcases parts with _ | pl
  · exact Or.inl ⟨rfl, Or.inl rfl⟩
  rcases pl with _ | ⟨⟨bl⟩, pltl⟩
  · exact Or.inl ⟨rfl, Or.inr ⟨.indexError, rfl⟩⟩
  rcases bl with _ | ⟨mt, dat⟩
  · exact Or.inl ⟨rfl, Or.inl rfl⟩
  by_cases hd : dat.isEmpty
  · refine Or.inl ⟨?_, Or.inl ?_⟩
    · simp [isAudioChunk, hd]
    · simp [processChunk, handleBlob, hd]
  have hd' : dat.isEmpty = false := by
    simpa using hd
  refine Or.inr ⟨by simp [isAudioChunk, hd'], ?_⟩
  have hpc : processChunk sink b i
      ⟨some (⟨some ⟨some (⟨some ⟨mt, dat⟩⟩ :: pltl)⟩⟩ :: cltl), txt⟩ =
      handleBlob sink b i ⟨mt, dat⟩ := rfl
  rw [hpc]
  exact handleBlob_char sink b i ⟨mt, dat⟩ hd'

theorem processChunk_skip_not_audio (sink : Sink) (b : String) (i : Nat)
    (c : Chunk) (h : processChunk sink b i c = .skip) :
    isAudioChunk c = false := by
  rcases processChunk_char sink b i c with ⟨hc, _⟩ | ⟨hc, hcase⟩
  · exact hc
  rcases hcase with ⟨u, hu, _, _⟩ | ⟨e, he⟩
  · rw [h] at hu
    cases hu
  · rw [h] at he
    cases he

theorem processChunk_emit_props (sink : Sink) (b : String) (i : Nat)
    (c : Chunk) (u : OutputUnit) (h : processChunk sink b i c = .emit u) :
    isAudioChunk c = true ∧ u.index = i ∧ u.name = b ++ "_part_" ++ toString i := by
  rcases processChunk_char sink b i c with ⟨hc, hcase⟩ | ⟨hc, hcase⟩
  · rcases hcase with hsk | ⟨e, he⟩
    · rw [h] at hsk
      cases hsk
    · rw [h] at he
      cases he
  rcases hcase with ⟨u', hu, hidx, hname⟩ | ⟨e, he⟩
  · rw [h] at hu
    cases hu
    exact ⟨hc, hidx, hname⟩
  · rw [h] at he
    cases he

theorem processChunk_nonaudio_fragment (sink : Sink) (b : String) (i : Nat)
    (f : AudioFragment) (h : isAudioBearing f = false) :
    processChunk sink b i (toChunk f) = .skip := by
  rcases f with ⟨d, m⟩ | t | _
  · have hd : d.isEmpty = true := by
      simpa [isAudioBearing] using h
    simp [toChunk, processChunk, handleBlob, hd]
  · rfl
  · rfl

theorem generateLoop_skip (sink : Sink) (b : String) (i : Nat) (c : Chunk)
    (rest : List Chunk) (h : processChunk sink b i c = .skip) :
    generateLoop sink b i (c :: rest) = generateLoop sink b i rest := by
  simp only [generateLoop]
  rw [h]

theorem generateLoop_emit (sink : Sink) (b : String) (i : Nat) (c : Chunk)
    (rest : List Chunk) (u : OutputUnit) (h : processChunk sink b i c = .emit u) :
    generateLoop sink b i (c :: rest) =
      (u :: (generateLoop sink b (i + 1) rest).1,
        (generateLoop sink b (i + 1) rest).2.1,
        (generateLoop sink b (i + 1) rest).2.2) := by
  simp only [generateLoop]
  rw [h]

theorem generateLoop_fail (sink : Sink) (b : String) (i : Nat) (c : Chunk)
    (rest : List Chunk) (inc : Bool) (e : PyError)
    (h : processChunk sink b i c = .fail inc e) :
    generateLoop sink b i (c :: rest) = ([], if inc then i + 1 else i, some e) := by
  simp only [generateLoop]
  rw [h]

/-- Invariant of a loop run that was not aborted by an exception: one
unit per audio-classified chunk, indices contiguous from the starting
index, names formed from the base name and the unit's own index, and
the final index is the starting index plus the number of units. -/
theorem generateLoop_invariant (sink : Sink) (b : String) :
    ∀ (chunks : List Chunk) (i : Nat) (us : List OutputUnit) (j : Nat),
      generateLoop sink b i chunks = (us, j, none) →
      us.length = (chunks.filter isAudioChunk).length ∧
      us.map OutputUnit.index = List.range' i us.length ∧
      (∀ u ∈ us, u.name = b ++ "_part_" ++ toString u.index) ∧
      j = i + us.length := by
  intro chunks
  induction chunks with
  | nil =>
    intro i us j h
    simp only [generateLoop, Prod.mk.injEq] at h
    obtain ⟨h1, h2, h3⟩ := h
    subst h1
    subst h2
    refine ⟨rfl, by simp [List.range'], by simp, by simp⟩
  | cons c rest ih =>
    intro i us j h
    rcases hstep : processChunk sink b i c with _ | u | ⟨inc, e⟩
    · rw [generateLoop_skip sink b i c rest hstep] at h
      have hna : isAudioChunk c = false := processChunk_skip_not_audio sink b i c hstep
      obtain ⟨l1, l2, l3, l4⟩ := ih i us j h
      exact ⟨by simp [List.filter, hna, l1], l2, l3, l4⟩
    · rw [generateLoop_emit sink b i c rest u hstep] at h
      rcases hrec : generateLoop sink b (i + 1) rest with ⟨us', j', h'⟩
      rw [hrec] at h
      simp only [Prod.mk.injEq] at h
      obtain ⟨hus, hj', hh'⟩ := h
      subst hus
      subst hj'
      have hh'' : h' = none := hh'
      subst hh''
      obtain ⟨ha, hidx, hname⟩ := processChunk_emit_props sink b i c u hstep
      obtain ⟨l1, l2, l3, l4⟩ := ih (i + 1) us' j' hrec
      refine ⟨?_, ?_, ?_, ?_⟩
      · simp [List.filter, ha, l1]
      · simp only [List.map_cons, List.length_cons, List.range'_succ, hidx, l2]
      · intro v hv
        rcases List.mem_cons.mp hv with hv | hv
        · subst hv
          rw [hname, hidx]
        · exact l3 v hv
      · simp only [List.length_cons, l4]
        omega
    · rw [generateLoop_fail sink b i c rest inc e hstep] at h
      simp only [Prod.mk.injEq] at h
      obtain ⟨_, _, h3⟩ := h
      cases h3

/-- Splitting a loop run at an exception-free prefix. -/
theorem generateLoop_append (sink : Sink) (b : String) :
    ∀ (l1 : List Chunk) (i : Nat) (us : List OutputUnit) (j : Nat),
      generateLoop sink b i l1 = (us, j, none) →
      ∀ l2 : List Chunk,
        generateLoop sink b i (l1 ++ l2) =
          (us ++ (generateLoop sink b j l2).1,
            (generateLoop sink b j l2).2.1,
            (generateLoop sink b j l2).2.2) := by
  intro l1
  induction l1 with
  | nil =>
    intro i us j h l2
    simp only [generateLoop, Prod.mk.injEq] at h
    obtain ⟨h1, h2, h3⟩ := h
    subst h1
    subst h2
    simp
  | cons c rest ih =>
    intro i us j h l2
    rcases hstep : processChunk sink b i c with _ | u | ⟨inc, e⟩
    · rw [generateLoop_skip sink b i c rest hstep] at h
      rw [List.cons_append, generateLoop_skip sink b i c (rest ++ l2) hstep]
      exact ih i us j h l2
    · rw [generateLoop_emit sink b i c rest u hstep] at h
      rcases hrec : generateLoop sink b (i + 1) rest with ⟨us', j', h'⟩
      rw [hrec] at h
      simp only [Prod.mk.injEq] at h
      obtain ⟨hus, hj', hh'⟩ := h
      have hh'' : h' = none := hh'
      subst hh''
      rw [List.cons_append, generateLoop_emit sink b i c (rest ++ l2) u hstep,
        ih (i + 1) us' j' hrec l2]
      simp only [← hus, ← hj', List.cons_append]
    · rw [generateLoop_fail sink b i c rest inc e hstep] at h
      simp only [Prod.mk.injEq] at h
      obtain ⟨_, _, h3⟩ := h
      cases h3

/-- The output index never decreases over a loop run. -/
theorem generateLoop_index_ge (sink : Sink) (b : String) :
    ∀ (chunks : List Chunk) (i : Nat) (us : List OutputUnit) (j : Nat)
      (h : Option PyError),
      generateLoop sink b i chunks = (us, j, h) → i ≤ j := by
  intro chunks
  induction chunks with
  | nil =>
    intro i us j h heq
    simp only [generateLoop, Prod.mk.injEq] at heq
    omega
  | cons c rest ih =>
    intro i us j h heq
    rcases hstep : processChunk sink b i c with _ | u | ⟨inc, e⟩
    · rw [generateLoop_skip sink b i c rest hstep] at heq
      exact ih i us j h heq
    · rw [generateLoop_emit sink b i c rest u hstep] at heq
      rcases hrec : generateLoop sink b (i + 1) rest with ⟨us', j', h'⟩
      rw [hrec] at heq
      simp only [Prod.mk.injEq] at heq
      have := ih (i + 1) us' j' h' hrec
      omega
    · rw [generateLoop_fail sink b i c rest inc e hstep] at heq
      simp only [Prod.mk.injEq] at heq
      obtain ⟨_, hj, _⟩ := heq
      subst hj
      cases inc <;> simp

/-- Units are only ever emitted together with an index increment, so a
run that produced at least one unit ends with a final index past the
start. -/
theorem generateLoop_pos (sink : Sink) (b : String) :
    ∀ (chunks : List Chunk) (i : Nat) (us : List OutputUnit) (j : Nat)
      (h : Option PyError),
      generateLoop sink b i chunks = (us, j, h) →
      us ≠ [] → i + 1 ≤ j := by
  intro chunks
  induction chunks with
  | nil =>
    intro i us j h heq hne
    simp only [generateLoop, Prod.mk.injEq] at heq
    exact absurd heq.1.symm hne
  | cons c rest ih =>
    intro i us j h heq hne
    rcases hstep : processChunk sink b i c with _ | u | ⟨inc, e⟩
    · rw [generateLoop_skip sink b i c rest hstep] at heq
      exact ih i us j h heq hne
    · rw [generateLoop_emit sink b i c rest u hstep] at heq
      rcases hrec : generateLoop sink b (i + 1) rest with ⟨us', j', h'⟩
      rw [hrec] at heq
      simp only [Prod.mk.injEq] at heq
      have := generateLoop_index_ge sink b rest (i + 1) us' j' h' hrec
      omega
    · rw [generateLoop_fail sink b i c rest inc e hstep] at heq
      simp only [Prod.mk.injEq] at heq
      exact absurd heq.1.symm hne

/-! ### Helper lemmas about the parser -/

/-- The `rate=` update of the spec's Parser algorithm (section 4.1),
evaluated on its own. -/
def parseStepSpecRate (p : SampleParameters) (tok : List Char) : SampleParameters :=
  if List.isPrefixOf ("rate=".toList) (pyLower (pyStrip tok)) then
    match (afterFirst '=' (pyStrip tok)).bind pyInt? with
    | some n => { p with rate := n }
    | none => p
  else p

/-- The `audio/L` update of the spec's Parser algorithm (section 4.1),
evaluated on its own. -/
def parseStepSpecBits (p : SampleParameters) (tok : List Char) : SampleParameters :=
  if List.isPrefixOf ("audio/L".toList) (pyStrip tok) then
    match (afterFirst 'L' (pyStrip tok)).bind pyInt? with
    | some n => { p with bits_per_sample := n }
    | none => p
  else p

/-- The per-token update of the spec's Parser algorithm (section 4.1),
with the `rate=` check and the `audio/L` check evaluated independently
of each other, exactly as the spec words them. -/
def parseStepSpec (p : SampleParameters) (tok : List Char) : SampleParameters :=
  parseStepSpecBits (parseStepSpecRate p tok) tok

/-- A token can never satisfy both prefix checks: a token starting
with `audio/L` starts with the letter `a`, which `lower()` keeps, so
its lowered form cannot start with `rate=`. -/
theorem audioL_not_rate (l : List Char) (h : List.isPrefixOf ("audio/L".toList) l = true) :
    List.isPrefixOf ("rate=".toList) (pyLower l) = false := by
  cases l with
  | nil =>
    simp [String.toList, List.isPrefixOf] at h
  | cons c rest =>
    have hc : c = 'a' := by
      simp [String.toList, List.isPrefixOf] at h
      exact h.1.symm
    subst hc
    have : pyLowerChar 'a' = 'a' := by decide
    simp [pyLower, this, String.toList, List.isPrefixOf]

/-- The `elif` of the source coincides with the spec's two independent
checks, because no token satisfies both prefixes. -/
theorem parseStep_eq_spec (p : SampleParameters) (tok : List Char) :
    parseStep p tok = parseStepSpec p tok := by
  unfold parseStep parseStepSpec parseStepSpecRate parseStepSpecBits
  by_cases hr : List.isPrefixOf ("rate=".toList) (pyLower (pyStrip tok)) = true
  · have ha : ¬ List.isPrefixOf ("audio/L".toList) (pyStrip tok) = true := by
      intro hq
      rw [audioL_not_rate (pyStrip tok) hq] at hr
      cases hr
    simp only [if_pos hr, if_neg ha]
  · simp only [if_neg hr]

/-- Whether a token is a recognised, successfully parsing `rate=`
parameter, and the rate it carries. -/
def rateOfToken? (tok : List Char) : Option Int :=
  if List.isPrefixOf ("rate=".toList) (pyLower (pyStrip tok)) then
    (afterFirst '=' (pyStrip tok)).bind pyInt?
  else none

/-- Whether a token is a recognised, successfully parsing `audio/L`
principal type, and the bit width it carries (the `elif` makes this
check reachable only when the `rate=` check failed). -/
def bitsOfToken? (tok : List Char) : Option Int :=
  if List.isPrefixOf ("rate=".toList) (pyLower (pyStrip tok)) then none
  else if List.isPrefixOf ("audio/L".toList) (pyStrip tok) then
    (afterFirst 'L' (pyStrip tok)).bind pyInt?
  else none

theorem parseStep_rate (p : SampleParameters) (tok : List Char) (n : Int)
    (h : rateOfToken? tok = some n) :
    parseStep p tok = { p with rate := n } := by
  unfold rateOfToken? at h
  unfold parseStep
  by_cases hr : List.isPrefixOf ("rate=".toList) (pyLower (pyStrip tok)) = true
  · rw [if_pos hr] at h
    rw [if_pos hr, h]
  · rw [if_neg hr] at h
    cases h

theorem parseStep_bits (p : SampleParameters) (tok : List Char) (n : Int)
    (h : bitsOfToken? tok = some n) :
    parseStep p tok = { p with bits_per_sample := n } := by
  unfold bitsOfToken? at h
  unfold parseStep
  by_cases hr : List.isPrefixOf ("rate=".toList) (pyLower (pyStrip tok)) = true
  · rw [if_pos hr] at h
    cases h
  · rw [if_neg hr] at h
    rw [if_neg hr]
    by_cases ha : List.isPrefixOf ("audio/L".toList) (pyStrip tok) = true
    · rw [if_pos ha] at h
      rw [if_pos ha, h]
    · rw [if_neg ha] at h
      cases h

/-! ### Branch lemmas for an audio fragment under the reliable sink -/

theorem processChunk_audio_pass (b : String) (i : Nat) (d : List Nat)
    (mt ext : String) (hd : d.isEmpty = false)
    (hx : guessExtension? mt = some ext) :
    processChunk okSink b i (toChunk (.audioPayload d (some mt))) =
      .emit ⟨i, b ++ "_part_" ++ toString i, ext, d⟩ := by
  have h1 : processChunk okSink b i (toChunk (.audioPayload d (some mt))) =
      handleBlob okSink b i ⟨some mt, d⟩ := rfl
  rw [h1]
  unfold handleBlob
  dsimp only
  rw [hd]
  show dispatchMime okSink (b ++ "_part_" ++ toString i) i d mt = _
  unfold dispatchMime
  rw [hx]
  rfl

theorem processChunk_audio_synth (b : String) (i : Nat) (d : List Nat)
    (mt : String) (buf : List Nat) (hd : d.isEmpty = false)
    (hx : guessExtension? mt = none) (hw : convert_to_wav d mt = some buf) :
    processChunk okSink b i (toChunk (.audioPayload d (some mt))) =
      .emit ⟨i, b ++ "_part_" ++ toString i, ".wav", buf⟩ := by
  have h1 : processChunk okSink b i (toChunk (.audioPayload d (some mt))) =
      handleBlob okSink b i ⟨some mt, d⟩ := rfl
  rw [h1]
  unfold handleBlob
  dsimp only
  rw [hd]
  show dispatchMime okSink (b ++ "_part_" ++ toString i) i d mt = _
  unfold dispatchMime
  rw [hx]
  show synthStep okSink (b ++ "_part_" ++ toString i) i d mt = _
  unfold synthStep
  rw [hw]
  rfl

/-- Chunk-level and fragment-level audio classification agree. -/
theorem isAudioChunk_toChunk (f : AudioFragment) :
    isAudioChunk (toChunk f) = isAudioBearing f := by
  rcases f with ⟨d, m⟩ | t | _ <;> rfl

/-! ### Claim C1 -/

/-- C1, counterexample: as stated, the claim quantifies over *every*
`SampleParameters`, but at `bits_per_sample = 65536` the `H` field of
`struct.pack` is out of range, so `synthesize` raises instead of
returning a `44 + len(data)`-byte buffer. -/
theorem c1_counterexample :
    synthesize [] { bits_per_sample := 65536, rate := 24000 } = none := by
  decide

/-- C1 (amended): for every byte string and every `SampleParameters`
whose derived header fields fit their fixed widths, `synthesize`
returns exactly the 44-byte RIFF/WAVE header of spec section 4.2
(byte for byte, as `wavHeaderSpec` — NumChannels fixed to 1, all
fields little-endian) followed by the input data unchanged, so the
output length is exactly `44 + len(data)`. -/
theorem c1_synthesize_header (data : List Nat) (p : SampleParameters)
    (h : headerFits p data.length) :
    synthesize data p = some (wavHeaderSpec p data.length ++ data) ∧
    (wavHeaderSpec p data.length ++ data).length = 44 + data.length := by
  refine ⟨synthesize_of_fits data p h, ?_⟩
  rw [List.length_append, wavHeaderSpec_length]

/-- C1, witness: the empty buffer at the default parameters
`{16, 24000}` fits, and yields exactly the 44-byte header. -/
theorem c1_witness :
    headerFits { bits_per_sample := 16, rate := 24000 } 0 ∧
    (synthesize [] { bits_per_sample := 16, rate := 24000 } =
        some (wavHeaderSpec { bits_per_sample := 16, rate := 24000 } 0 ++ []) ∧
      (wavHeaderSpec { bits_per_sample := 16, rate := 24000 } 0 ++
          ([] : List Nat)).length = 44 + ([] : List Nat).length) :=
  ⟨by decide,
    c1_synthesize_header [] { bits_per_sample := 16, rate := 24000 } (by decide)⟩

/-! ### Claim C2 -/

/-- C2: `parse_audio_mime_type` is total (it is a plain function of
the string); the empty string yields the defaults `{16, 24000}`; the
per-token update of the source (an `elif` chain) coincides with the
spec's two *independent* prefix checks folded over the `;`-split,
whitespace-stripped tokens (so unrecognised or malformed tokens leave
both fields unchanged and never abort the remaining tokens); and when
a recognised key occurs more than once the last occurrence wins. -/
theorem c2_parse_characterization :
    parse_audio_mime_type "" = { bits_per_sample := 16, rate := 24000 } ∧
    (∀ m : String,
      parse_audio_mime_type m =
        (splitOnChar ';' m.toList).foldl parseStepSpec
          { bits_per_sample := 16, rate := 24000 }) ∧
    (∀ (p : SampleParameters) (ts : List (List Char)) (tok : List Char) (n : Int),
      rateOfToken? tok = some n →
      (List.foldl parseStep p (ts ++ [tok])).rate = n) ∧
    (∀ (p : SampleParameters) (ts : List (List Char)) (tok : List Char) (n : Int),
      bitsOfToken? tok = some n →
      (List.foldl parseStep p (ts ++ [tok])).bits_per_sample = n) := by
  have hfold : ∀ (l : List (List Char)) (q : SampleParameters),
      l.foldl parseStep q = l.foldl parseStepSpec q := by
    intro l
    induction l with
    | nil => intro q; rfl
    | cons t ts ih =>
      intro q
      rw [List.foldl_cons, List.foldl_cons, parseStep_eq_spec, ih]
  refine ⟨by decide, ?_, ?_, ?_⟩
  · intro m
    unfold parse_audio_mime_type
    exact hfold _ _
  · intro p ts tok n h
    rw [List.foldl_append, List.foldl_cons, List.foldl_nil, parseStep_rate _ tok n h]
  · intro p ts tok n h
    rw [List.foldl_append, List.foldl_cons, List.foldl_nil, parseStep_bits _ tok n h]

/-- C2, witness: a late `rate=99` token overrides whatever came
before, and a late `audio/L24` token sets the bit width. -/
theorem c2_witness :
    (List.foldl parseStep { bits_per_sample := 16, rate := 24000 }
        ([String.toList "x"] ++ [String.toList " rate=99 "])).rate = 99 ∧
    (List.foldl parseStep { bits_per_sample := 16, rate := 24000 }
        ([String.toList "rate=1"] ++ [String.toList "audio/L24"])).bits_per_sample = 24 :=
  ⟨c2_parse_characterization.2.2.1 { bits_per_sample := 16, rate := 24000 }
      [String.toList "x"] (String.toList " rate=99 ") 99 (by decide),
    c2_parse_characterization.2.2.2 { bits_per_sample := 16, rate := 24000 }
      [String.toList "rate=1"] (String.toList "audio/L24") 24 (by decide)⟩

/-! ### Claim C3 -/

/-- The synthesized buffer of claim C3's first fragment: 44-byte
header for `{bits_per_sample := 16, rate := 16000}` over 2 data
bytes, then the 2 data bytes. -/
def c3buf : List Nat :=
  [82, 73, 70, 70, 38, 0, 0, 0, 87, 65, 86, 69, 102, 109, 116, 32,
   16, 0, 0, 0, 1, 0, 1, 0, 128, 62, 0, 0, 0, 125, 0, 0, 2, 0, 16, 0,
   100, 97, 116, 97, 2, 0, 0, 0, 1, 2]

/-- C3: the three-fragment stream [raw-PCM audio, text, container
audio] yields exactly two units with indices 0 and 1: unit 0 takes
the synthesis path (no extension mapped for `audio/L16;rate=16000`),
has extension `.wav` and a 46-byte buffer whose SampleRate field is
16000; unit 1 takes the passthrough path (extension mapped for
`audio/wav`) with its bytes unchanged; the text fragment produces no
unit. -/
theorem c3_three_fragment_stream (bs : List Nat) (hbs : bs ≠ []) :
    generate okSink "setswana_medical_dialogue"
        [toChunk (.audioPayload [1, 2] (some "audio/L16;rate=16000")),
         toChunk (.textPayload "hi"),
         toChunk (.audioPayload bs (some "audio/wav"))] =
      ⟨[⟨0, "setswana_medical_dialogue_part_0", ".wav", c3buf⟩,
        ⟨1, "setswana_medical_dialogue_part_1", ".wav", bs⟩], 2, none, false⟩ ∧
    c3buf.length = 46 ∧ readU32 c3buf 24 = 16000 := by
  refine ⟨?_, by decide, by decide⟩
  have hbs' : bs.isEmpty = false := by
    cases bs
    · exact absurd rfl hbs
    · rfl
  have s1 : processChunk okSink "setswana_medical_dialogue" 0
      (toChunk (.audioPayload [1, 2] (some "audio/L16;rate=16000"))) =
      .emit ⟨0, "setswana_medical_dialogue_part_0", ".wav", c3buf⟩ := by
    decide
  have s2 : processChunk okSink "setswana_medical_dialogue" 1
      (toChunk (.textPayload "hi")) = .skip := by decide
  have s3 : processChunk okSink "setswana_medical_dialogue" 1
      (toChunk (.audioPayload bs (some "audio/wav"))) =
      .emit ⟨1, "setswana_medical_dialogue_part_1", ".wav", bs⟩ := by
    have := processChunk_audio_pass "setswana_medical_dialogue" 1 bs
      "audio/wav" ".wav" hbs' (by decide)
    simpa using this
  unfold generate
  rw [generateLoop_emit _ _ 0 _ _ _ s1,
    generateLoop_skip _ _ 1 _ _ s2,
    generateLoop_emit _ _ 1 _ _ _ s3]
  rfl

/-- C3, witness: the stream at a concrete nonempty third payload. -/
theorem c3_witness :
    generate okSink "setswana_medical_dialogue"
        [toChunk (AudioFragment.audioPayload [1, 2] (some "audio/L16;rate=16000")),
         toChunk (AudioFragment.textPayload "hi"),
         toChunk (AudioFragment.audioPayload [82, 73, 70, 70] (some "audio/wav"))] =
      ⟨[⟨0, "setswana_medical_dialogue_part_0", ".wav", c3buf⟩,
        ⟨1, "setswana_medical_dialogue_part_1", ".wav", [82, 73, 70, 70]⟩],
        2, none, false⟩ :=
  (c3_three_fragment_stream [82, 73, 70, 70] (by decide)).1

/-! ### Claim C4 -/

/-- C4, counterexample: as stated, the claim promises one OutputUnit
per audio-bearing fragment for *every* stream, but an audio-bearing
fragment whose MIME type is absent raises `AttributeError` in
`guess_extension`, aborting the stream: one audio-bearing fragment,
zero units emitted. -/
theorem c4_counterexample :
    isAudioBearing (AudioFragment.audioPayload [1] none) = true ∧
    (generate okSink "b" [toChunk (AudioFragment.audioPayload [1] none)]).units = [] := by
  decide

/-- C4 (amended): for every stream whose processing completes without
an aborting exception, exactly one OutputUnit is emitted per chunk
classified audio-bearing, the emitted indices are exactly
`0, 1, 2, ...` in order, each unit is named
`base_name ++ "_part_" ++ index`, and non-audio (empty or text)
fragments produce no unit and no index increment. -/
theorem c4_loop_invariant (sink : Sink) (b : String) (chunks : List Chunk)
    (hh : (generate sink b chunks).halted = none) :
    (generate sink b chunks).units.length = (chunks.filter isAudioChunk).length ∧
    (generate sink b chunks).units.map OutputUnit.index =
      List.range (chunks.filter isAudioChunk).length ∧
    (∀ u ∈ (generate sink b chunks).units,
      u.name = b ++ "_part_" ++ toString u.index) ∧
    (∀ f : AudioFragment, isAudioBearing f = false →
      ∀ i, processChunk sink b i (toChunk f) = .skip) ∧
    (∀ f : AudioFragment, isAudioChunk (toChunk f) = isAudioBearing f) := by
  rcases hl : generateLoop sink b 0 chunks with ⟨us, j, h⟩
  have hgen : generate sink b chunks = ⟨us, j, h, h.isNone && j == 0⟩ := by
    unfold generate
    rw [hl]
  rw [hgen] at hh
  have hh' : h = none := hh
  subst hh'
  obtain ⟨l1, l2, l3, l4⟩ := generateLoop_invariant sink b chunks 0 us j hl
  rw [hgen]
  refine ⟨?_, ?_, l3, ?_, isAudioChunk_toChunk⟩
  · exact l1
  · show us.map OutputUnit.index = _
    rw [← l1, l2]
    exact (List.range_eq_range' us.length).symm
  · intro f hf i
    exact processChunk_nonaudio_fragment sink b i f hf

/-- A concrete two-fragment stream for the C4 witness. -/
def c4chunks : List Chunk :=
  [toChunk (AudioFragment.textPayload "x"),
   toChunk (AudioFragment.audioPayload [9] (some "audio/wav"))]

/-- C4, witness: on a clean run, units are in bijection with the
audio-classified chunks. -/
theorem c4_witness :
    (generate okSink "b" c4chunks).units.length =
      (c4chunks.filter isAudioChunk).length :=
  (c4_loop_invariant okSink "b" c4chunks (by decide)).1

/-! ### Claim C5 -/

/-- The always-failing sink. -/
def failSink : Sink := fun _ _ => Except.error PyError.ioError

/-- C5, counterexample: a sink I/O failure on the first unit is *not*
contained to that unit — it aborts the stream, so the second
audio-bearing fragment (which yields a second unit under a working
sink) produces nothing. -/
theorem c5_counterexample :
    generate failSink "b"
        [toChunk (AudioFragment.audioPayload [1] (some "audio/wav")),
         toChunk (AudioFragment.audioPayload [2] (some "audio/wav"))] =
      ⟨[], 1, some .ioError, false⟩ ∧
    (generate okSink "b"
        [toChunk (AudioFragment.audioPayload [1] (some "audio/wav")),
         toChunk (AudioFragment.audioPayload [2] (some "audio/wav"))]).units.length = 2 := by
  decide

/-- C5 (amended): a sink I/O failure while persisting one unit
propagates to the single stream-level handler: units persisted before
the failure are unaffected, the failing unit is not emitted, and no
further fragment of the stream is processed (no diagnostic is printed
either, since the loop never finishes). -/
theorem c5_sink_failure_halts (sink : Sink) (b : String) (pre : List Chunk)
    (c : Chunk) (rest : List Chunk) (e : PyError) (us : List OutputUnit) (j : Nat)
    (hpre : generateLoop sink b 0 pre = (us, j, none))
    (hfail : processChunk sink b j c = .fail true e) :
    generate sink b (pre ++ c :: rest) = ⟨us, j + 1, some e, false⟩ := by
  unfold generate
  rw [generateLoop_append sink b pre 0 us j hpre (c :: rest),
    generateLoop_fail sink b j c rest true e hfail]
  simp

/-- A sink failing exactly on the second output file. -/
def failSecond : Sink := fun name _ =>
  if name = "b_part_1.wav" then Except.error PyError.ioError else Except.ok ()

/-- C5, witness: with a sink failing on the second file, the first
unit is kept, the failure is recorded, and the third fragment is
never processed. -/
theorem c5_witness :
    generate failSecond "b"
        ([toChunk (AudioFragment.audioPayload [1] (some "audio/wav"))] ++
          toChunk (AudioFragment.audioPayload [2] (some "audio/wav")) ::
            [toChunk (AudioFragment.audioPayload [3] (some "audio/wav"))]) =
      ⟨[⟨0, "b" ++ "_part_" ++ toString 0, ".wav", [1]⟩], 1 + 1,
        some PyError.ioError, false⟩ :=
  c5_sink_failure_halts failSecond "b"
    [toChunk (AudioFragment.audioPayload [1] (some "audio/wav"))]
    (toChunk (AudioFragment.audioPayload [2] (some "audio/wav")))
    [toChunk (AudioFragment.audioPayload [3] (some "audio/wav"))]
    PyError.ioError [⟨0, "b" ++ "_part_" ++ toString 0, ".wav", [1]⟩] 1
    (by decide) (by decide)

/-! ### Claim C6 -/

/-- C6, counterexample: an *absent* (`None`) MIME type does abort the
stream — `mimetypes.guess_extension(None)` raises `AttributeError`,
which escapes to the stream-level handler. -/
theorem c6_counterexample :
    generate okSink "b" [toChunk (AudioFragment.audioPayload [1] none)] =
      ⟨[], 1, some .attributeError, false⟩ := by
  decide

/-- C6 (amended): for an audio-bearing fragment whose MIME type is a
*present* string, an unknown or malformed MIME type is not an error:
when the extension mapping knows the type the data passes through,
and otherwise the fragment falls through to the raw-PCM synthesis
path with the Parser's output (defaults `{16, 24000}` for malformed
fields), provided the parsed parameters fit the fixed header fields;
an absent (`None`) MIME type, or parameters overflowing the fixed
header fields, raise and abort the stream instead. -/
theorem c6_mime_fallthrough (b : String) (i : Nat) (d : List Nat) (mt : String)
    (hd : d ≠ []) :
    (∀ ext, guessExtension? mt = some ext →
      processChunk okSink b i (toChunk (.audioPayload d (some mt))) =
        .emit ⟨i, b ++ "_part_" ++ toString i, ext, d⟩) ∧
    (guessExtension? mt = none →
      headerFits (parse_audio_mime_type mt) d.length →
      processChunk okSink b i (toChunk (.audioPayload d (some mt))) =
        .emit ⟨i, b ++ "_part_" ++ toString i, ".wav",
          wavHeaderSpec (parse_audio_mime_type mt) d.length ++ d⟩) := by
  have hd' : d.isEmpty = false := by
    cases d
    · exact absurd rfl hd
    · rfl
  constructor
  · intro ext hx
    exact processChunk_audio_pass b i d mt ext hd' hx
  · intro hx hf
    exact processChunk_audio_synth b i d mt _ hd' hx
      (synthesize_of_fits d (parse_audio_mime_type mt) hf)

/-- C6, witness: an unrecognised MIME string takes the synthesis path
with the default parameters and emits a unit. -/
theorem c6_witness :
    processChunk okSink "b" 0
        (toChunk (AudioFragment.audioPayload [7] (some "application/x-unknown"))) =
      .emit ⟨0, "b" ++ "_part_" ++ toString 0, ".wav",
        wavHeaderSpec (parse_audio_mime_type "application/x-unknown")
          (List.length [7]) ++ [7]⟩ :=
  (c6_mime_fallthrough "b" 0 [7] "application/x-unknown" (by decide)).2
    (by decide) (by decide)

/-! ### Claim C7 -/

/-- C7: whenever `synthesize` returns a buffer, decoding the
little-endian u32 at offset 4 (ChunkSize) gives `36 + len(data)` and
the u32 at offset 40 (Subchunk2Size) gives `len(data)`. -/
theorem c7_roundtrip (data : List Nat) (p : SampleParameters) (buf : List Nat)
    (h : synthesize data p = some buf) :
    readU32 buf 4 = 36 + data.length ∧ readU32 buf 40 = data.length := by
  have hf : headerFits p data.length := by
    by_contra hn
    rw [synthesize_none_of_not_fits data p hn] at h
    cases h
  rw [synthesize_of_fits data p hf] at h
  injection h with hb
  subst hb
  obtain ⟨_, _, _, _, hc⟩ := hf
  exact ⟨readU32_header_4 p data.length data (by omega),
    readU32_header_40 p data.length data (by omega)⟩

/-- C7, witness: the empty buffer at the defaults. -/
theorem c7_witness :
    readU32 (wavHeaderSpec { bits_per_sample := 16, rate := 24000 } 0 ++ []) 4 =
      36 + List.length ([] : List Nat) ∧
    readU32 (wavHeaderSpec { bits_per_sample := 16, rate := 24000 } 0 ++ []) 40 =
      List.length ([] : List Nat) :=
  c7_roundtrip [] { bits_per_sample := 16, rate := 24000 }
    (wavHeaderSpec { bits_per_sample := 16, rate := 24000 } 0 ++ []) (by decide)

/-! ### Claim C8 -/

/-- C8: a stream with no audio-bearing fragment emits zero units,
finishes without an exception, and signals the "no audio produced"
diagnostic (an informational flag, not an error value); and whenever
at least one unit was emitted the diagnostic is not signalled. -/
theorem c8_no_audio_diagnostic :
    (∀ (sink : Sink) (b : String) (fs : List AudioFragment),
      (∀ f ∈ fs, isAudioBearing f = false) →
      generate sink b (fs.map toChunk) = ⟨[], 0, none, true⟩) ∧
    (∀ (sink : Sink) (b : String) (chunks : List Chunk),
      (generate sink b chunks).units ≠ [] →
      (generate sink b chunks).diagnostic = false) := by
  constructor
  · intro sink b fs hf
    have hloop : ∀ (l : List AudioFragment),
        (∀ f ∈ l, isAudioBearing f = false) →
        ∀ i, generateLoop sink b i (l.map toChunk) = ([], i, none) := by
      intro l
      induction l with
      | nil => intro _ i; rfl
      | cons f fs2 ih =>
        intro hall i
        rw [List.map_cons,
          generateLoop_skip sink b i (toChunk f) (fs2.map toChunk)
            (processChunk_nonaudio_fragment sink b i f
              (hall f (List.mem_cons_self f fs2)))]
        exact ih (fun g hg => hall g (List.mem_cons_of_mem f hg)) i
    unfold generate
    rw [hloop fs hf 0]
    rfl
  · intro sink b chunks hne
    rcases hl : generateLoop sink b 0 chunks with ⟨us, j, h⟩
    have hgen : generate sink b chunks = ⟨us, j, h, h.isNone && j == 0⟩ := by
      unfold generate
      rw [hl]
    rw [hgen] at hne ⊢
    have hus : us ≠ [] := hne
    have hj := generateLoop_pos sink b chunks 0 us j h hl hus
    have hj0 : j ≠ 0 := by omega
    show (h.isNone && (j == 0)) = false
    simp [hj0]

/-- C8, witness: an all-text stream triggers the diagnostic. -/
theorem c8_witness :
    generate okSink "b"
        (List.map toChunk [AudioFragment.textPayload "hi", AudioFragment.empty]) =
      ⟨[], 0, none, true⟩ :=
  c8_no_audio_diagnostic.1 okSink "b"
    [AudioFragment.textPayload "hi", AudioFragment.empty] (by decide)

/-! ### Claim C9 -/

/-- C9: the loop body inspects only the first part of the first
candidate — its outcome is unchanged by the later parts, later
candidates and the `text` property; when that first part carries no
truthy inline audio data the chunk is skipped (so audio in a later
part or candidate is silently dropped); and a skipped chunk
contributes no unit and no index increment to the rest of the loop. -/
theorem c9_first_part_only :
    (∀ (sink : Sink) (b : String) (i : Nat) (p0 : ResponsePart)
        (ps ps' : List ResponsePart) (cs cs' : List Candidate)
        (txt txt' : Option String),
      processChunk sink b i ⟨some (⟨some ⟨some (p0 :: ps)⟩⟩ :: cs), txt⟩ =
        processChunk sink b i ⟨some (⟨some ⟨some (p0 :: ps')⟩⟩ :: cs'), txt'⟩) ∧
    (∀ (sink : Sink) (b : String) (i : Nat) (ps : List ResponsePart)
        (cs : List Candidate) (txt : Option String) (mt : Option String),
      processChunk sink b i ⟨some (⟨some ⟨some (⟨none⟩ :: ps)⟩⟩ :: cs), txt⟩ =
        .skip ∧
      processChunk sink b i
          ⟨some (⟨some ⟨some (⟨some ⟨mt, []⟩⟩ :: ps)⟩⟩ :: cs), txt⟩ = .skip) ∧
    (∀ (sink : Sink) (b : String) (i : Nat) (c : Chunk) (rest : List Chunk),
      processChunk sink b i c = .skip →
      generateLoop sink b i (c :: rest) = generateLoop sink b i rest) := by
  refine ⟨?_, ?_, ?_⟩
  · intro sink b i p0 ps ps' cs cs' txt txt'
    rfl
  · intro sink b i ps cs txt mt
    exact ⟨rfl, rfl⟩
  · intro sink b i c rest h
    exact generateLoop_skip sink b i c rest h

/-- C9, witness: a candidate-less chunk is dropped from the loop. -/
theorem c9_witness :
    generateLoop okSink "b" 0
        [Chunk.mk none none,
         toChunk (AudioFragment.audioPayload [1] (some "audio/wav"))] =
      generateLoop okSink "b" 0
        [toChunk (AudioFragment.audioPayload [1] (some "audio/wav"))] :=
  c9_first_part_only.2.2 okSink "b" 0 (Chunk.mk none none)
    [toChunk (AudioFragment.audioPayload [1] (some "audio/wav"))] (by decide)

/-! ### Claim C10 -/

/-- C10: `synthesize` is partial over parser outputs — the MIME string
`audio/L65536` is accepted by the parser (bits_per_sample 65536), but
packing then fails (`struct.error`) instead of returning a buffer;
in general packing succeeds exactly when `bits_per_sample` and
`block_align` fit in 16 bits and `sample_rate`, `byte_rate` and
`36 + len(data)` fit in 32 bits. -/
theorem c10_partial_synthesize :
    parse_audio_mime_type "audio/L65536" =
      { bits_per_sample := 65536, rate := 24000 } ∧
    convert_to_wav [0] "audio/L65536" = none ∧
    ∀ (d : List Nat) (p : SampleParameters),
      (synthesize d p).isSome ↔ headerFits p d.length := by
  exact ⟨by decide, by decide, synthesize_isSome_iff⟩

end Demo
